import Mathlib

/-!
A shallow embedding of the GoInject container (`container.go` and the
type-parametrized wrappers) and proofs about its registration and
resolution behaviour.

Modelling decisions, mirroring the Go source:

* `Ty` models `reflect.Type` identities.  The code only ever inspects
  `Kind()` (pointer vs function vs anything else), `NumIn()`, `NumOut()`
  and `Out(0)`, so a function type carries exactly those observations.
* `GoVal` models a non-nil `any` value: its dynamic type and, for
  pointer-shaped values, the address it points at.  The untyped `nil`
  interface is modelled as `none : Option GoVal`; in Go,
  `reflect.TypeOf(nil).Kind()` and `reflect.Value.Type()` on the zero
  `Value` panic, which the embedding renders as `Res.panic none`.
* The two registry maps (`providers`, `factories`) are total functions
  `Ty → Option _`, matching Go map lookup (absent key = zero value).
* Allocation freshness: a factory body may allocate; the container state
  carries an allocation counter `next` that is passed to the factory at
  each invocation and then incremented, so a factory of shape
  `fun n => ⟨t, n⟩` returns a genuinely fresh pointer per call, while a
  constant factory models one returning a pre-existing pointer.
* `Container.get` additionally reports whether it invoked a factory
  (the `Bool` component), making "the factory runs at most once"
  directly observable.
* A stored factory wrapper is `factoryValue.Call(nil)[0].Interface()`;
  since the declared result type `Out(0)` is a concrete pointer type,
  Go's type system guarantees the produced interface value has dynamic
  type exactly `Out(0)`, so the wrapper stamps that type on its result.
-/

/-- The `reflect.Kind` observations the source makes. -/
inductive Kind where
  | ptr
  | fn
  | other
deriving DecidableEq, Repr

/-- `reflect.Type` identities as the source observes them: a named base
type, a pointer type, or a function type of which the code reads only
`NumIn`, `NumOut` and `Out(0)` (the `out0` field is read only on the
path where `NumOut = 1`). -/
inductive Ty where
  | base : Nat → Ty
  | ptr : Ty → Ty
  | func : Nat → Nat → Ty → Ty
deriving DecidableEq, Repr

/-- `Kind()` of a type. -/
def Ty.kind : Ty → Kind
  | .base _ => .other
  | .ptr _ => .ptr
  | .func _ _ _ => .fn

/-- A non-nil Go interface value: dynamic type plus the address behind it
(meaningful when the dynamic type is pointer-shaped). -/
structure GoVal where
  ty : Ty
  addr : Nat
deriving DecidableEq, Repr

/-- The sentinel errors of `container.go`. -/
inductive GoErr where
  | serviceNotFound
  | factoryMustBeAFunction
  | factoryMustReturnOneValue
  | factoryMustTakeNoArguments
  | outputMustBeAPointer
deriving DecidableEq, Repr

/-- The outcome of a Go call: a normal result, a returned error, or a
panic (carrying the error value for `panic(err)`, `none` for runtime
panics such as a method call through a nil `reflect.Type`). -/
inductive Res (α : Type) where
  | ok : α → Res α
  | err : GoErr → Res α
  | panic : Option GoErr → Res α
deriving DecidableEq, Repr

/-- A candidate factory argument: its `reflect` type together with the
behaviour of the underlying function (fed the allocation counter, so it
can produce fresh pointers). -/
structure FVal where
  ty : Ty
  impl : Nat → GoVal

/-- Pointwise update of a type-keyed map, i.e. Go `m[k] = v`. -/
def upd {β : Type} (m : Ty → Option β) (k : Ty) (v : β) : Ty → Option β :=
  fun k' => if k' = k then some v else m k'

/-- The container: `factories` and `providers` maps plus the allocation
counter threaded to factory invocations. -/
structure Container where
  factories : Ty → Option (Nat → GoVal)
  providers : Ty → Option GoVal
  next : Nat

/-- `New()`: both maps empty. -/
def Container.new : Container :=
  ⟨fun _ => none, fun _ => none, 0⟩

/-- `Container.Register`: reject non-pointer dynamic types with
`ErrOutputMustBeAPointer`, otherwise store the value under its own type
identity, overwriting.  Untyped nil panics (`reflect.TypeOf(nil)` is nil
and `Kind()` on it dereferences nil). -/
def Container.register (c : Container) (service : Option GoVal) :
    Res Unit × Container :=
  match service with
  | none => (.panic none, c)
  | some v =>
    if v.ty.kind ≠ .ptr then
      (.err .outputMustBeAPointer, c)
    else
      (.ok (), { c with providers := upd c.providers v.ty v })

/-- `Container.RegisterFactory`: validate in source order (function kind,
`NumIn() = 0`, `NumOut() = 1`, `Out(0)` pointer-shaped), then store the
wrapper under `Out(0)`.  The wrapper calls the function and returns its
single result, whose dynamic type is exactly the declared `Out(0)`.
Untyped nil panics (`reflect.Value.Type()` on the zero `Value`). -/
def Container.registerFactory (c : Container) (factory : Option FVal) :
    Res Unit × Container :=
  match factory with
  | none => (.panic none, c)
  | some fv =>
    match fv.ty with
    | .base _ => (.err .factoryMustBeAFunction, c)
    | .ptr _ => (.err .factoryMustBeAFunction, c)
    | .func numIn numOut out0 =>
      if numIn ≠ 0 then
        (.err .factoryMustTakeNoArguments, c)
      else if numOut ≠ 1 then
        (.err .factoryMustReturnOneValue, c)
      else if out0.kind ≠ .ptr then
        (.err .outputMustBeAPointer, c)
      else
        let wrapper : Nat → GoVal := fun n => ⟨out0, (fv.impl n).addr⟩
        (.ok (), { c with factories := upd c.factories out0 wrapper })

/-- `Container.Get`: reject non-pointer arguments; return the registered
instance if present; otherwise invoke a registered factory, memoize its
result into `providers`, and return it; otherwise `ErrServiceNotFound`.
The `Bool` component records whether a factory was invoked.  Untyped nil
panics. -/
def Container.get (c : Container) (out : Option GoVal) :
    Res GoVal × Container × Bool :=
  match out with
  | none => (.panic none, c, false)
  | some v =>
    if v.ty.kind ≠ .ptr then
      (.err .outputMustBeAPointer, c, false)
    else
      match c.providers v.ty with
      | some s => (.ok s, c, false)
      | none =>
        match c.factories v.ty with
        | some f =>
          (.ok (f c.next),
           { c with providers := upd c.providers v.ty (f c.next),
                    next := c.next + 1 },
           true)
        | none => (.err .serviceNotFound, c, false)

/-- A heap assigning (shallow, struct-wide) contents to each address;
`h a` is the field tuple stored behind address `a`. -/
def Heap : Type := Nat → Nat

/-- Heap store, i.e. `*p = x`. -/
def hupd (h : Heap) (a x : Nat) : Heap :=
  fun b => if b = a then x else h b

/-- `Container.GetValue`: resolve via `get`, then copy the resolved
instance's dereferenced contents into the caller's dereferenced slot
(`reflect.Value.Set`).  Errors propagate unchanged with no write.  The
`none` inner case is unreachable because `get` only succeeds on a
pointer argument. -/
def Container.getValue (c : Container) (out : Option GoVal) (h : Heap) :
    Res Unit × Container × Heap :=
  match c.get out, out with
  | (.ok s, c', _), some v => (.ok (), c', hupd h v.addr (h s.addr))
  | (.ok _, c', _), none => (.panic none, c', h)
  | (.err e, c', _), _ => (.err e, c', h)
  | (.panic p, c', _), _ => (.panic p, c', h)

/-- The generic `Get[T]`: allocate a zero slot of type `T` (its address
is irrelevant to resolution, which reads only the type), resolve under
the key `*T`, then type-assert the result back to `*T`, failing with
`ErrOutputMustBeAPointer` on a dynamic-type mismatch. -/
def getT (c : Container) (t : Ty) : Res GoVal × Container :=
  match c.get (some ⟨Ty.ptr t, 0⟩) with
  | (.ok s, c', _) =>
    if s.ty = Ty.ptr t then (.ok s, c') else (.err .outputMustBeAPointer, c')
  | (.err e, c', _) => (.err e, c')
  | (.panic p, c', _) => (.panic p, c')

/-- The generic `MustGet[T]`: call `Get[T]`; on error `e`, `panic(e)`. -/
def mustGetT (c : Container) (t : Ty) : Res GoVal × Container :=
  match getT c t with
  | (.ok s, c') => (.ok s, c')
  | (.err e, c') => (.panic (some e), c')
  | (.panic p, c') => (.panic p, c')

/-- The generic `GetValue[T]`: delegates to `Container.GetValue`. -/
def getValueT (c : Container) (out : GoVal) (h : Heap) :
    Res Unit × Container × Heap :=
  c.getValue (some out) h

/-- One public container operation, for stating frame/stability facts
over arbitrary later call sequences. -/
inductive Op where
  | get : Option GoVal → Op
  | register : Option GoVal → Op
  | registerFactory : Option FVal → Op

/-- The state transition of one operation (results discarded). -/
def run (c : Container) : Op → Container
  | .get out => (c.get out).2.1
  | .register v => (c.register v).2
  | .registerFactory f => (c.registerFactory f).2

/-- Run a sequence of operations left to right. -/
def runs (c : Container) (ops : List Op) : Container :=
  ops.foldl run c

/-- `op` does not directly register an instance at identity `t`. -/
def avoids (t : Ty) : Op → Prop
  | .register (some w) => w.ty ≠ t
  | _ => True

/-- Well-formedness: every stored instance has dynamic type equal to its
key, and every stored factory produces values of its key's type. -/
def WF (c : Container) : Prop :=
  (∀ t v, c.providers t = some v → v.ty = t) ∧
  (∀ t f, c.factories t = some f → ∀ n, (f n).ty = t)

/-!
A two-thread interleaving machine for `Get` under the source's locking.
Both `Get` calls take `mu.RLock()`, a shared (non-exclusive) lock, so the
two goroutines hold it simultaneously and their memory operations on the
maps interleave freely.  One thread's `Get` on a factory-backed,
not-yet-memoized key decomposes into three atomic memory steps:
read `providers[t]` (miss), read `factories[t]` and call the factory,
write `providers[t]`.
-/

/-- Program counter of one goroutine inside `Get` (pointer check already
passed; both threads resolve the same pointer key). -/
inductive TPC where
  | atRead
  | missed
  | produced : GoVal → TPC
  | done : GoVal → TPC
  | failed
deriving DecidableEq, Repr

/-- One atomic step of a goroutine at `pc` running `Get` for key `t`,
given the shared container and the global factory-invocation count. -/
def stepThread (t : Ty) (c : Container) (pc : TPC) (inv : Nat) :
    Container × TPC × Nat :=
  match pc with
  | .atRead =>
    match c.providers t with
    | some s => (c, .done s, inv)
    | none => (c, .missed, inv)
  | .missed =>
    match c.factories t with
    | some f => ({ c with next := c.next + 1 }, .produced (f c.next), inv + 1)
    | none => (c, .failed, inv)
  | .produced s => ({ c with providers := upd c.providers t s }, .done s, inv)
  | .done s => (c, .done s, inv)
  | .failed => (c, .failed, inv)

/-- Shared state of two goroutines racing through `Get`. -/
structure RaceState where
  cont : Container
  pc0 : TPC
  pc1 : TPC
  invocations : Nat

/-- Schedule one step of thread `false` (thread 0) or `true` (thread 1). -/
def raceStep (t : Ty) (st : RaceState) (tid : Bool) : RaceState :=
  if tid then
    let r := stepThread t st.cont st.pc1 st.invocations
    ⟨r.1, st.pc0, r.2.1, r.2.2⟩
  else
    let r := stepThread t st.cont st.pc0 st.invocations
    ⟨r.1, r.2.1, st.pc1, r.2.2⟩

/-- Run a schedule (list of thread ids) from a race state. -/
def raceRun (t : Ty) (st : RaceState) (sched : List Bool) : RaceState :=
  sched.foldl (raceStep t) st

/-!  Concrete fixtures used by the witnesses and counterexamples. -/

/-- A sample struct type. -/
def tS : Ty := .base 0

/-- The pointer type `*tS`, the key used by the fixtures. -/
def ptS : Ty := .ptr tS

/-- A sample registered instance of type `*tS` at address 5. -/
def vS : GoVal := ⟨ptS, 5⟩

/-- A sample factory behaviour returning a fresh `*tS` pointer. -/
def fS : Nat → GoVal := fun n => ⟨ptS, n + 10⟩

/-- A container holding only the instance `vS` under `ptS`. -/
def cInst : Container := ⟨fun _ => none, upd (fun _ => none) ptS vS, 0⟩

/-- A container holding only the factory `fS` under `ptS`. -/
def cFac : Container := ⟨upd (fun _ => none) ptS fS, fun _ => none, 0⟩

/-- A non-pointer (plain struct) value, for the validation fixtures. -/
def plainS : GoVal := ⟨tS, 7⟩

/-- A heap with all contents zero. -/
def h0 : Heap := fun _ => 0

/-- A valid factory argument: `func() *tS` with behaviour `fS`. -/
def fvGood : FVal := ⟨.func 0 1 ptS, fS⟩

/-- `cFac` after its first resolution of `ptS`: the factory's first
product (address 10) memoized, allocation counter advanced. -/
def cFacAfter : Container := ⟨cFac.factories, upd cFac.providers ptS ⟨ptS, 10⟩, 1⟩

/-!  Helper lemmas shared by the claim theorems. -/

theorem get_nonptr (c : Container) (v : GoVal) (hk : v.ty.kind ≠ Kind.ptr) :
    c.get (some v) = (.err .outputMustBeAPointer, c, false) := by
  simp [Container.get, hk]

theorem get_provider (c : Container) (v s : GoVal) (hk : v.ty.kind = Kind.ptr)
    (hp : c.providers v.ty = some s) :
    c.get (some v) = (.ok s, c, false) := by
  simp [Container.get, hk, hp]

theorem get_factory (c : Container) (v : GoVal) (f : Nat → GoVal)
    (hk : v.ty.kind = Kind.ptr) (hp : c.providers v.ty = none)
    (hf : c.factories v.ty = some f) :
    c.get (some v) =
      (.ok (f c.next), ⟨c.factories, upd c.providers v.ty (f c.next), c.next + 1⟩,
       true) := by
  simp [Container.get, hk, hp, hf]

theorem get_neither (c : Container) (v : GoVal) (hk : v.ty.kind = Kind.ptr)
    (hp : c.providers v.ty = none) (hf : c.factories v.ty = none) :
    c.get (some v) = (.err .serviceNotFound, c, false) := by
  simp [Container.get, hk, hp, hf]

/-- One operation that does not directly register an instance at `t`
preserves an existing instance entry at `t`. -/
theorem run_preserves_provider (c : Container) (t : Ty) (v : GoVal) (op : Op)
    (hp : c.providers t = some v) (ha : avoids t op) :
    (run c op).providers t = some v := by
  cases op with
  | get out =>
    cases out with
    | none => simpa [run, Container.get] using hp
    | some w =>
      by_cases hk : w.ty.kind = Kind.ptr
      · cases hq : c.providers w.ty with
        | some s => simp [run, Container.get, hk, hq, hp]
        | none =>
          cases hf : c.factories w.ty with
          | some f =>
            have hne : t ≠ w.ty := fun h => by rw [h, hq] at hp; exact Option.noConfusion hp
            simp [run, Container.get, hk, hq, hf, upd, hne, hp]
          | none => simp [run, Container.get, hk, hq, hf, hp]
      · simp [run, Container.get, hk, hp]
  | register w =>
    cases w with
    | none => simpa [run, Container.register] using hp
    | some w =>
      have hne : w.ty ≠ t := ha
      by_cases hk : w.ty.kind = Kind.ptr
      · simp [run, Container.register, hk, upd, Ne.symm hne, hp]
      · simp [run, Container.register, hk, hp]
  | registerFactory fv =>
    cases fv with
    | none => simpa [run, Container.registerFactory] using hp
    | some fv =>
      cases hty : fv.ty with
      | base m => simp [run, Container.registerFactory, hty, hp]
      | ptr u => simp [run, Container.registerFactory, hty, hp]
      | func numIn numOut out0 =>
        by_cases h1 : numIn = 0
        · by_cases h2 : numOut = 1
          · by_cases h3 : out0.kind = Kind.ptr
            · simp [run, Container.registerFactory, hty, h1, h2, h3, hp]
            · simp [run, Container.registerFactory, hty, h1, h2, h3, hp]
          · simp [run, Container.registerFactory, hty, h1, h2, hp]
        · simp [run, Container.registerFactory, hty, h1, hp]

/-- A sequence of operations, none directly registering an instance at
`t`, preserves an existing instance entry at `t`. -/
theorem runs_preserves_provider (ops : List Op) (c : Container) (t : Ty)
    (v : GoVal) (hp : c.providers t = some v) (ha : ∀ op ∈ ops, avoids t op) :
    (runs c ops).providers t = some v := by
  induction ops generalizing c with
  | nil => simpa [runs] using hp
  | cons op rest ih =>
    have h1 : (run c op).providers t = some v :=
      run_preserves_provider c t v op hp (ha op (List.mem_cons_self op rest))
    have h2 : ∀ o ∈ rest, avoids t o := fun o ho => ha o (List.mem_cons_of_mem op ho)
    simpa [runs] using ih (run c op) h1 h2

/-- C1: `Container.Get` on a pointer-shaped argument resolves by type
identity: an instance entry is returned as-is with no error and no state
change; otherwise a factory entry is invoked, its product memoized under
the same identity and returned; with neither entry it fails with
`ServiceNotFound`.  A non-pointer argument fails with
`OutputMustBeAPointer` without consulting or changing either mapping. -/
theorem c1_get_resolution (c : Container) (v : GoVal) :
    (v.ty.kind ≠ Kind.ptr →
      c.get (some v) = (.err .outputMustBeAPointer, c, false)) ∧
    (v.ty.kind = Kind.ptr →
      (∀ s, c.providers v.ty = some s → c.get (some v) = (.ok s, c, false)) ∧
      (∀ f, c.providers v.ty = none → c.factories v.ty = some f →
        c.get (some v) =
          (.ok (f c.next),
           ⟨c.factories, upd c.providers v.ty (f c.next), c.next + 1⟩, true)) ∧
      (c.providers v.ty = none → c.factories v.ty = none →
        c.get (some v) = (.err .serviceNotFound, c, false))) := by
  refine ⟨fun hk => get_nonptr c v hk, fun hk => ⟨?_, ?_, ?_⟩⟩
  · exact fun s hp => get_provider c v s hk hp
  · exact fun f hp hf => get_factory c v f hk hp hf
  · exact fun hp hf => get_neither c v hk hp hf

theorem c1_get_resolution_witness :
    (vS.ty.kind = Kind.ptr ∧ cInst.providers vS.ty = some vS ∧
      cInst.get (some vS) = (.ok vS, cInst, false)) ∧
    (plainS.ty.kind ≠ Kind.ptr ∧
      cInst.get (some plainS) = (.err .outputMustBeAPointer, cInst, false)) ∧
    (cFac.providers vS.ty = none ∧ cFac.factories vS.ty = some fS ∧
      cFac.get (some vS) =
        (.ok ⟨ptS, 10⟩, ⟨cFac.factories, upd cFac.providers vS.ty ⟨ptS, 10⟩, 1⟩,
         true)) ∧
    (Container.new.get (some vS) = (.err .serviceNotFound, Container.new, false)) :=
  ⟨⟨rfl, rfl, ((c1_get_resolution cInst vS).2 rfl).1 vS rfl⟩,
   ⟨by decide, (c1_get_resolution cInst plainS).1 (by decide)⟩,
   ⟨rfl, rfl, ((c1_get_resolution cFac vS).2 rfl).2.1 fS rfl rfl⟩,
   ((c1_get_resolution Container.new vS).2 rfl).2.2 rfl rfl⟩

/-- C2: for a type identity backed only by a factory, the first `Get`
invokes the factory (once) and memoizes its product; after that, any
sequence of operations that does not directly register an instance at
that identity leaves the memoized entry in place, and every later `Get`
for the identity returns the identical memoized value, without invoking
any factory and without changing the state.  A directly registered
instance is likewise returned identically by every `Get`. -/
theorem c2_singleton_after_first_use (c : Container) (t : Ty) (a b : Nat)
    (f : Nat → GoVal) (hp : c.providers (Ty.ptr t) = none)
    (hf : c.factories (Ty.ptr t) = some f) :
    ((c.get (some ⟨Ty.ptr t, a⟩)).2.2 = true) ∧
    (∀ s c₁ i, c.get (some ⟨Ty.ptr t, a⟩) = (.ok s, c₁, i) →
      s = f c.next ∧ c₁.providers (Ty.ptr t) = some s ∧
      (∀ ops, (∀ op ∈ ops, avoids (Ty.ptr t) op) →
        (runs c₁ ops).get (some ⟨Ty.ptr t, b⟩) = (.ok s, runs c₁ ops, false))) ∧
    (∀ (d : Container) (w : GoVal), d.providers (Ty.ptr t) = some w →
      d.get (some ⟨Ty.ptr t, b⟩) = (.ok w, d, false)) := by
  have hg := get_factory c ⟨Ty.ptr t, a⟩ f rfl hp hf
  refine ⟨by rw [hg], ?_, ?_⟩
  · intro s c₁ i hget
    rw [hg] at hget
    have hs : s = f c.next := (Res.ok.inj (congrArg Prod.fst hget)).symm
    have hc₁ : c₁ = ⟨c.factories, upd c.providers (Ty.ptr t) (f c.next), c.next + 1⟩ :=
      (congrArg (fun p => p.2.1) hget).symm
    refine ⟨hs, ?_, ?_⟩
    · rw [hc₁, hs]; simp [upd]
    · intro ops ha
      have hmem : c₁.providers (Ty.ptr t) = some s := by rw [hc₁, hs]; simp [upd]
      have hkeep := runs_preserves_provider ops c₁ (Ty.ptr t) s hmem ha
      exact get_provider (runs c₁ ops) ⟨Ty.ptr t, b⟩ s rfl hkeep
  · intro d w hw
    exact get_provider d ⟨Ty.ptr t, b⟩ w rfl hw

theorem c2_singleton_after_first_use_witness :
    cFac.providers (Ty.ptr tS) = none ∧
    cFac.factories (Ty.ptr tS) = some fS ∧
    cFac.get (some ⟨Ty.ptr tS, 0⟩) = (.ok ⟨ptS, 10⟩, cFacAfter, true) ∧
    (runs cFacAfter []).get (some ⟨Ty.ptr tS, 1⟩) =
      (.ok ⟨ptS, 10⟩, runs cFacAfter [], false) ∧
    cInst.get (some ⟨Ty.ptr tS, 1⟩) = (.ok vS, cInst, false) :=
  ⟨rfl, rfl, rfl,
   (((c2_singleton_after_first_use cFac tS 0 1 fS rfl rfl).2.1
       ⟨ptS, 10⟩ cFacAfter true rfl).2.2 [] (by simp)),
   (c2_singleton_after_first_use cFac tS 0 1 fS rfl rfl).2.2 cInst vS rfl⟩

/-- C3: `RegisterFactory` validates in source order — non-function,
then parameter count, then result count, then pointer-shaped result —
returning the first failing check's error with no state change; on
success it stores the wrapper under the declared result type's identity,
overwriting any prior factory there, and returns no error. -/
theorem c3_registerFactory_validation (c : Container) (fv : FVal) :
    (fv.ty.kind ≠ Kind.fn →
      c.registerFactory (some fv) = (.err .factoryMustBeAFunction, c)) ∧
    (∀ numIn numOut out0, fv.ty = Ty.func numIn numOut out0 →
      (numIn ≠ 0 →
        c.registerFactory (some fv) = (.err .factoryMustTakeNoArguments, c)) ∧
      (numIn = 0 → numOut ≠ 1 →
        c.registerFactory (some fv) = (.err .factoryMustReturnOneValue, c)) ∧
      (numIn = 0 → numOut = 1 → out0.kind ≠ Kind.ptr →
        c.registerFactory (some fv) = (.err .outputMustBeAPointer, c)) ∧
      (numIn = 0 → numOut = 1 → out0.kind = Kind.ptr →
        c.registerFactory (some fv) =
          (.ok (),
           ⟨upd c.factories out0 (fun n => ⟨out0, (fv.impl n).addr⟩),
            c.providers, c.next⟩))) := by
  constructor
  · intro hk
    cases hty : fv.ty with
    | base m => simp [Container.registerFactory, hty]
    | ptr u => simp [Container.registerFactory, hty]
    | func numIn numOut out0 => rw [hty] at hk; exact absurd rfl hk
  · intro numIn numOut out0 hty
    refine ⟨?_, ?_, ?_, ?_⟩
    · intro h1; simp [Container.registerFactory, hty, h1]
    · intro h1 h2; simp [Container.registerFactory, hty, h1, h2]
    · intro h1 h2 h3; simp [Container.registerFactory, hty, h1, h2, h3]
    · intro h1 h2 h3; simp [Container.registerFactory, hty, h1, h2, h3]

theorem c3_registerFactory_validation_witness :
    ((⟨tS, fS⟩ : FVal).ty.kind ≠ Kind.fn ∧
      cInst.registerFactory (some ⟨tS, fS⟩) = (.err .factoryMustBeAFunction, cInst)) ∧
    (cInst.registerFactory (some ⟨Ty.func 2 1 ptS, fS⟩) =
      (.err .factoryMustTakeNoArguments, cInst)) ∧
    (cInst.registerFactory (some ⟨Ty.func 0 2 ptS, fS⟩) =
      (.err .factoryMustReturnOneValue, cInst)) ∧
    (cInst.registerFactory (some ⟨Ty.func 0 1 tS, fS⟩) =
      (.err .outputMustBeAPointer, cInst)) ∧
    (cInst.registerFactory (some fvGood) =
      (.ok (),
       ⟨upd cInst.factories ptS (fun n => ⟨ptS, (fvGood.impl n).addr⟩),
        cInst.providers, cInst.next⟩)) :=
  ⟨⟨by decide, (c3_registerFactory_validation cInst ⟨tS, fS⟩).1 (by decide)⟩,
   ((c3_registerFactory_validation cInst ⟨Ty.func 2 1 ptS, fS⟩).2 2 1 ptS rfl).1
     (by decide),
   (((c3_registerFactory_validation cInst ⟨Ty.func 0 2 ptS, fS⟩).2 0 2 ptS rfl).2.1
     rfl (by decide)),
   (((c3_registerFactory_validation cInst ⟨Ty.func 0 1 tS, fS⟩).2 0 1 tS rfl).2.2.1
     rfl rfl (by decide)),
   (((c3_registerFactory_validation cInst fvGood).2 0 1 ptS rfl).2.2.2
     rfl rfl rfl)⟩

/-- C4: `Register` rejects a value whose runtime type is not
pointer-shaped with `OutputMustBeAPointer`, leaving the registry
unchanged; otherwise it stores the value under its runtime type
identity — unconditionally overwriting any prior instance there — and
returns no error. -/
theorem c4_register (c : Container) (v : GoVal) :
    (v.ty.kind ≠ Kind.ptr →
      c.register (some v) = (.err .outputMustBeAPointer, c)) ∧
    (v.ty.kind = Kind.ptr →
      c.register (some v) = (.ok (), ⟨c.factories, upd c.providers v.ty v, c.next⟩) ∧
      ((c.register (some v)).2).providers v.ty = some v ∧
      (∀ k, k ≠ v.ty → ((c.register (some v)).2).providers k = c.providers k)) := by
  constructor
  · intro hk; simp [Container.register, hk]
  · intro hk
    refine ⟨by simp [Container.register, hk], ?_, ?_⟩
    · simp [Container.register, hk, upd]
    · intro k hkne; simp [Container.register, hk, upd, hkne]

theorem c4_register_witness :
    (plainS.ty.kind ≠ Kind.ptr ∧
      cInst.register (some plainS) = (.err .outputMustBeAPointer, cInst)) ∧
    (cInst.providers ptS = some vS ∧
      ((cInst.register (some ⟨ptS, 9⟩)).2).providers ptS = some ⟨ptS, 9⟩) :=
  ⟨⟨by decide, (c4_register cInst plainS).1 (by decide)⟩,
   ⟨rfl, ((c4_register cInst ⟨ptS, 9⟩).2 rfl).2.1⟩⟩

/-- C5: the claim fails on the source.  Both `Get` calls take the shared
(non-exclusive) `RLock`, so two goroutines resolving the same
not-yet-instantiated factory-backed identity hold the lock together and
their map operations interleave.  A solo thread (schedule
`[false, false, false]`) matches `Container.get`: one invocation,
result `⟨ptS, 10⟩`.  But under the interleaving in which both threads
read the instance map before either writes it
(schedule `[false, true, false, true, false, true]`), the factory is
invoked twice, the two threads return different instances
(`⟨ptS, 10⟩` vs `⟨ptS, 11⟩`), and thread 0's instance is not the
canonical memoized one (`⟨ptS, 11⟩`, the last write). -/
theorem c5_race_double_invocation :
    ((raceRun ptS ⟨cFac, .atRead, .atRead, 0⟩ [false, false, false]).pc0 =
      .done ⟨ptS, 10⟩) ∧
    ((raceRun ptS ⟨cFac, .atRead, .atRead, 0⟩ [false, false, false]).invocations
      = 1) ∧
    ((cFac.get (some ⟨ptS, 0⟩)).1 = .ok ⟨ptS, 10⟩) ∧
    ((raceRun ptS ⟨cFac, .atRead, .atRead, 0⟩
        [false, true, false, true, false, true]).invocations = 2) ∧
    ((raceRun ptS ⟨cFac, .atRead, .atRead, 0⟩
        [false, true, false, true, false, true]).pc0 = .done ⟨ptS, 10⟩) ∧
    ((raceRun ptS ⟨cFac, .atRead, .atRead, 0⟩
        [false, true, false, true, false, true]).pc1 = .done ⟨ptS, 11⟩) ∧
    ((⟨ptS, 10⟩ : GoVal) ≠ ⟨ptS, 11⟩) ∧
    ((raceRun ptS ⟨cFac, .atRead, .atRead, 0⟩
        [false, true, false, true, false, true]).cont.providers ptS =
      some ⟨ptS, 11⟩) :=
  ⟨rfl, rfl, rfl, rfl, rfl, rfl, by decide, rfl⟩

/-- C6 counterexample to the claim as stated: register the pointer `vS`
(address 5) and pass that very pointer as the caller's slot.  `GetValue`
succeeds — the resolved instance is the stored `vS` itself — and the
copy is a self-copy, so the caller's slot aliases the registry's stored
instance: before mutation the instance's contents are `0`; after writing
`99` through the caller's slot they are `99`.  Mutating the caller's
copy did change the registry's stored instance. -/
theorem c6_alias_counterexample :
    (cInst.get (some vS)).1 = .ok vS ∧
    (cInst.getValue (some vS) h0).1 = .ok () ∧
    vS.addr = vS.addr ∧
    ((cInst.getValue (some vS) h0).2.2) vS.addr = 0 ∧
    hupd ((cInst.getValue (some vS) h0).2.2) vS.addr 99 vS.addr = 99 :=
  ⟨rfl, rfl, rfl, rfl, by decide⟩

/-- C6 (amended): `GetValue` performs `Get`'s resolution; on success it
writes exactly a copy of the resolved instance's dereferenced contents
into the caller's dereferenced slot, so the slot's contents equal the
instance's contents at call time; provided the caller's slot is a
different pointer from the resolved instance, later mutation of the
caller's copy leaves the contents behind the registry's stored instance
unchanged.  Any error from the underlying resolution is returned
unchanged and the heap is not written. -/
theorem c6_getValue_copy (c : Container) (v : GoVal) (h : Heap) :
    (∀ s c₁ i, c.get (some v) = (.ok s, c₁, i) →
      c.getValue (some v) h = (.ok (), c₁, hupd h v.addr (h s.addr)) ∧
      hupd h v.addr (h s.addr) v.addr = h s.addr ∧
      (v.addr ≠ s.addr →
        ∀ x, hupd (hupd h v.addr (h s.addr)) v.addr x s.addr = h s.addr)) ∧
    (∀ e c₁ i, c.get (some v) = (.err e, c₁, i) →
      c.getValue (some v) h = (.err e, c₁, h)) := by
  constructor
  · intro s c₁ i hget
    refine ⟨by simp [Container.getValue, hget], by simp [hupd], ?_⟩
    intro hne x
    have hsv : s.addr ≠ v.addr := fun hx => hne hx.symm
    simp [hupd, hsv]
  · intro e c₁ i hget
    simp [Container.getValue, hget]

theorem c6_getValue_copy_witness :
    cInst.get (some ⟨ptS, 3⟩) = (.ok vS, cInst, false) ∧
    cInst.getValue (some ⟨ptS, 3⟩) h0 = (.ok (), cInst, hupd h0 3 (h0 5)) ∧
    (3 : Nat) ≠ 5 ∧
    hupd (hupd h0 3 (h0 5)) 3 99 5 = h0 5 ∧
    Container.new.get (some ⟨ptS, 3⟩) =
      (.err .serviceNotFound, Container.new, false) ∧
    Container.new.getValue (some ⟨ptS, 3⟩) h0 =
      (.err .serviceNotFound, Container.new, h0) :=
  ⟨rfl,
   ((c6_getValue_copy cInst ⟨ptS, 3⟩ h0).1 vS cInst false rfl).1,
   by decide,
   ((c6_getValue_copy cInst ⟨ptS, 3⟩ h0).1 vS cInst false rfl).2.2 (by decide) 99,
   rfl,
   (c6_getValue_copy Container.new ⟨ptS, 3⟩ h0).2 .serviceNotFound
     Container.new false rfl⟩

/-- C7: `MustGet[T]` returns exactly what a successful `Get[T]` returns,
and when `Get[T]` returns an error — including `ServiceNotFound` for a
type unregistered in the fresh container — `MustGet[T]` panics with that
very error instead of returning a value. -/
theorem c7_mustGet_panics (c : Container) (t : Ty) :
    (∀ s c₁, getT c t = (.ok s, c₁) → mustGetT c t = (.ok s, c₁)) ∧
    (∀ e c₁, getT c t = (.err e, c₁) → mustGetT c t = (.panic (some e), c₁)) ∧
    getT Container.new t = (.err .serviceNotFound, Container.new) ∧
    mustGetT Container.new t = (.panic (some .serviceNotFound), Container.new) := by
  refine ⟨?_, ?_, rfl, rfl⟩
  · intro s c₁ hget; simp [mustGetT, hget]
  · intro e c₁ hget; simp [mustGetT, hget]

theorem c7_mustGet_panics_witness :
    getT cInst tS = (.ok vS, cInst) ∧
    mustGetT cInst tS = (.ok vS, cInst) ∧
    getT Container.new tS = (.err .serviceNotFound, Container.new) ∧
    mustGetT Container.new tS =
      (.panic (some GoErr.serviceNotFound), Container.new) :=
  ⟨rfl,
   (c7_mustGet_panics cInst tS).1 vS cInst rfl,
   rfl,
   (c7_mustGet_panics Container.new tS).2.1 .serviceNotFound Container.new rfl⟩

/-- C8: `RegisterFactory` never modifies the instance mapping or the
allocation counter, for any input, valid or invalid; `Register` never
modifies the factory mapping; each touches at most the slot of the
affected type identity (the value's runtime type for `Register`, the
declared result type for `RegisterFactory`); a nil argument changes
nothing. -/
theorem c8_registration_frame (c : Container) :
    (∀ i, ((c.registerFactory i).2).providers = c.providers) ∧
    (∀ i, ((c.registerFactory i).2).next = c.next) ∧
    (∀ i, ((c.register i).2).factories = c.factories) ∧
    (∀ i, ((c.register i).2).next = c.next) ∧
    (∀ w k, k ≠ w.ty → ((c.register (some w)).2).providers k = c.providers k) ∧
    (∀ fv numIn numOut out0, fv.ty = Ty.func numIn numOut out0 →
      ∀ k, k ≠ out0 →
        ((c.registerFactory (some fv)).2).factories k = c.factories k) ∧
    (∀ fv, fv.ty.kind ≠ Kind.fn →
      ((c.registerFactory (some fv)).2).factories = c.factories) ∧
    (c.register none).2 = c ∧ (c.registerFactory none).2 = c := by
  have hrfProviders : ∀ i, ((c.registerFactory i).2).providers = c.providers := by
    intro i
    rcases i with _ | fv
    · rfl
    · cases hty : fv.ty with
      | base m => simp [Container.registerFactory, hty]
      | ptr u => simp [Container.registerFactory, hty]
      | func numIn numOut out0 =>
        by_cases h1 : numIn = 0
        · by_cases h2 : numOut = 1
          · by_cases h3 : out0.kind = Kind.ptr
            · simp [Container.registerFactory, hty, h1, h2, h3]
            · simp [Container.registerFactory, hty, h1, h2, h3]
          · simp [Container.registerFactory, hty, h1, h2]
        · simp [Container.registerFactory, hty, h1]
  have hrfNext : ∀ i, ((c.registerFactory i).2).next = c.next := by
    intro i
    rcases i with _ | fv
    · rfl
    · cases hty : fv.ty with
      | base m => simp [Container.registerFactory, hty]
      | ptr u => simp [Container.registerFactory, hty]
      | func numIn numOut out0 =>
        by_cases h1 : numIn = 0
        · by_cases h2 : numOut = 1
          · by_cases h3 : out0.kind = Kind.ptr
            · simp [Container.registerFactory, hty, h1, h2, h3]
            · simp [Container.registerFactory, hty, h1, h2, h3]
          · simp [Container.registerFactory, hty, h1, h2]
        · simp [Container.registerFactory, hty, h1]
  have hrFactories : ∀ i, ((c.register i).2).factories = c.factories := by
    intro i
    rcases i with _ | w
    · rfl
    · by_cases hk : w.ty.kind = Kind.ptr
      · simp [Container.register, hk]
      · simp [Container.register, hk]
  have hrNext : ∀ i, ((c.register i).2).next = c.next := by
    intro i
    rcases i with _ | w
    · rfl
    · by_cases hk : w.ty.kind = Kind.ptr
      · simp [Container.register, hk]
      · simp [Container.register, hk]
  refine ⟨hrfProviders, hrfNext, hrFactories, hrNext, ?_, ?_, ?_, rfl, rfl⟩
  · intro w k hkne
    by_cases hk : w.ty.kind = Kind.ptr
    · simp [Container.register, hk, upd, hkne]
    · simp [Container.register, hk]
  · intro fv numIn numOut out0 hty k hkne
    by_cases h1 : numIn = 0
    · by_cases h2 : numOut = 1
      · by_cases h3 : out0.kind = Kind.ptr
        · simp [Container.registerFactory, hty, h1, h2, h3, upd, hkne]
        · simp [Container.registerFactory, hty, h1, h2, h3]
      · simp [Container.registerFactory, hty, h1, h2]
    · simp [Container.registerFactory, hty, h1]
  · intro fv hk
    cases hty : fv.ty with
    | base m => simp [Container.registerFactory, hty]
    | ptr u => simp [Container.registerFactory, hty]
    | func numIn numOut out0 => rw [hty] at hk; exact absurd rfl hk

theorem c8_registration_frame_witness :
    ((cInst.registerFactory (some fvGood)).2).providers = cInst.providers ∧
    ((cFac.register (some vS)).2).factories = cFac.factories ∧
    (Ty.base 1 ≠ vS.ty ∧
      ((cInst.register (some vS)).2).providers (Ty.base 1) =
        cInst.providers (Ty.base 1)) ∧
    (fvGood.ty = Ty.func 0 1 ptS ∧ tS ≠ ptS ∧
      ((cInst.registerFactory (some fvGood)).2).factories tS =
        cInst.factories tS) :=
  ⟨(c8_registration_frame cInst).1 (some fvGood),
   (c8_registration_frame cFac).2.2.1 (some vS),
   ⟨by decide, (c8_registration_frame cInst).2.2.2.2.1 vS (Ty.base 1) (by decide)⟩,
   ⟨rfl, by decide,
    (c8_registration_frame cInst).2.2.2.2.2.1 fvGood 0 1 ptS rfl tS (by decide)⟩⟩

/-- C9: the container maintains the invariant that every stored instance
has dynamic type exactly its key and every stored factory produces
values of its key's type — it holds of `New()` and is preserved by every
public operation.  Consequently, whenever the underlying `Get` succeeds
for the key `*T`, the resulting value's dynamic type is exactly `*T`,
the typed `Get[T]`'s assertion succeeds and returns that very result,
and the assertion's `OutputMustBeAPointer` branch is unreachable. -/
theorem c9_typed_assertion_safe :
    WF Container.new ∧
    (∀ c op, WF c → WF (run c op)) ∧
    (∀ (c : Container) (t : Ty), WF c →
      ∀ s c₁ i, c.get (some ⟨Ty.ptr t, 0⟩) = (.ok s, c₁, i) →
        s.ty = Ty.ptr t) ∧
    (∀ (c : Container) (t : Ty), WF c →
      ∀ s c₁ i, c.get (some ⟨Ty.ptr t, 0⟩) = (.ok s, c₁, i) →
        getT c t = (.ok s, c₁)) ∧
    (∀ (c : Container) (t : Ty), WF c →
      (getT c t).1 ≠ .err .outputMustBeAPointer) := by
  have hget_ty : ∀ (c : Container) (t : Ty), WF c →
      ∀ s c₁ i, c.get (some ⟨Ty.ptr t, 0⟩) = (.ok s, c₁, i) → s.ty = Ty.ptr t := by
    intro c t hwf s c₁ i hget
    obtain ⟨hw1, hw2⟩ := hwf
    cases hq : c.providers (Ty.ptr t) with
    | some w =>
      rw [get_provider c ⟨Ty.ptr t, 0⟩ w rfl hq] at hget
      have hs : w = s := Res.ok.inj (congrArg Prod.fst hget)
      rw [← hs]
      exact hw1 (Ty.ptr t) w hq
    | none =>
      cases hf : c.factories (Ty.ptr t) with
      | some f =>
        rw [get_factory c ⟨Ty.ptr t, 0⟩ f rfl hq hf] at hget
        have hs : f c.next = s := Res.ok.inj (congrArg Prod.fst hget)
        rw [← hs]
        exact hw2 (Ty.ptr t) f hf c.next
      | none =>
        rw [get_neither c ⟨Ty.ptr t, 0⟩ rfl hq hf] at hget
        exact absurd (congrArg Prod.fst hget) (by simp)
  refine ⟨?_, ?_, hget_ty, ?_, ?_⟩
  · constructor
    · intro t v h; simp [Container.new] at h
    · intro t f h; simp [Container.new] at h
  · intro c op hwf
    obtain ⟨hw1, hw2⟩ := hwf
    cases op with
    | get out =>
      rcases out with _ | w
      · exact ⟨hw1, hw2⟩
      · by_cases hk : w.ty.kind = Kind.ptr
        · cases hq : c.providers w.ty with
          | some s =>
            have hrun : run c (.get (some w)) = c := by
              simp [run, Container.get, hk, hq]
            rw [hrun]; exact ⟨hw1, hw2⟩
          | none =>
            cases hf : c.factories w.ty with
            | some f =>
              have hrun : run c (.get (some w)) =
                  ⟨c.factories, upd c.providers w.ty (f c.next), c.next + 1⟩ := by
                simp [run, Container.get, hk, hq, hf]
              rw [hrun]
              refine ⟨?_, hw2⟩
              intro t v h
              by_cases ht : t = w.ty
              · subst ht
                simp [upd] at h
                rw [← h]
                exact hw2 w.ty f hf c.next
              · simp [upd, ht] at h
                exact hw1 t v h
            | none =>
              have hrun : run c (.get (some w)) = c := by
                simp [run, Container.get, hk, hq, hf]
              rw [hrun]; exact ⟨hw1, hw2⟩
        · have hrun : run c (.get (some w)) = c := by
            simp [run, Container.get, hk]
          rw [hrun]; exact ⟨hw1, hw2⟩
    | register i =>
      rcases i with _ | w
      · exact ⟨hw1, hw2⟩
      · by_cases hk : w.ty.kind = Kind.ptr
        · have hrun : run c (.register (some w)) =
              ⟨c.factories, upd c.providers w.ty w, c.next⟩ := by
            simp [run, Container.register, hk]
          rw [hrun]
          refine ⟨?_, hw2⟩
          intro t v h
          by_cases ht : t = w.ty
          · subst ht
            simp [upd] at h
            rw [← h]
          · simp [upd, ht] at h
            exact hw1 t v h
        · have hrun : run c (.register (some w)) = c := by
            simp [run, Container.register, hk]
          rw [hrun]; exact ⟨hw1, hw2⟩
    | registerFactory i =>
      rcases i with _ | fv
      · exact ⟨hw1, hw2⟩
      · cases hty : fv.ty with
        | base m =>
          have hrun : run c (.registerFactory (some fv)) = c := by
            simp [run, Container.registerFactory, hty]
          rw [hrun]; exact ⟨hw1, hw2⟩
        | ptr u =>
          have hrun : run c (.registerFactory (some fv)) = c := by
            simp [run, Container.registerFactory, hty]
          rw [hrun]; exact ⟨hw1, hw2⟩
        | func numIn numOut out0 =>
          by_cases h1 : numIn = 0
          · by_cases h2 : numOut = 1
            · by_cases h3 : out0.kind = Kind.ptr
              · have hrun : run c (.registerFactory (some fv)) =
                    ⟨upd c.factories out0 (fun n => ⟨out0, (fv.impl n).addr⟩),
                     c.providers, c.next⟩ := by
                  simp [run, Container.registerFactory, hty, h1, h2, h3]
                rw [hrun]
                refine ⟨hw1, ?_⟩
                intro t f h
                by_cases ht : t = out0
                · subst ht
                  simp [upd] at h
                  rw [← h]
                  intro n
                  rfl
                · simp [upd, ht] at h
                  exact hw2 t f h
              · have hrun : run c (.registerFactory (some fv)) = c := by
                  simp [run, Container.registerFactory, hty, h1, h2, h3]
                rw [hrun]; exact ⟨hw1, hw2⟩
            · have hrun : run c (.registerFactory (some fv)) = c := by
                simp [run, Container.registerFactory, hty, h1, h2]
              rw [hrun]; exact ⟨hw1, hw2⟩
          · have hrun : run c (.registerFactory (some fv)) = c := by
              simp [run, Container.registerFactory, hty, h1]
            rw [hrun]; exact ⟨hw1, hw2⟩
  · intro c t hwf s c₁ i hget
    have hs := hget_ty c t hwf s c₁ i hget
    simp [getT, hget, hs]
  · intro c t hwf
    obtain ⟨hw1, hw2⟩ := hwf
    cases hq : c.providers (Ty.ptr t) with
    | some w =>
      simp [getT, get_provider c ⟨Ty.ptr t, 0⟩ w rfl hq, hw1 (Ty.ptr t) w hq]
    | none =>
      cases hf : c.factories (Ty.ptr t) with
      | some f =>
        simp [getT, get_factory c ⟨Ty.ptr t, 0⟩ f rfl hq hf,
              hw2 (Ty.ptr t) f hf c.next]
      | none =>
        simp [getT, get_neither c ⟨Ty.ptr t, 0⟩ rfl hq hf]

theorem c9_typed_assertion_safe_witness :
    WF cInst ∧
    getT cInst tS = (.ok vS, cInst) ∧
    (getT cInst tS).1 ≠ .err .outputMustBeAPointer ∧
    WF (run Container.new (.register (some vS))) := by
  have hwf : WF cInst := by
    constructor
    · intro t v h
      by_cases ht : t = ptS
      · subst ht
        simp [cInst, upd] at h
        rw [← h]
        rfl
      · simp [cInst, upd, ht] at h
    · intro t f h
      simp [cInst] at h
  refine ⟨hwf, ?_, ?_, ?_⟩
  · exact c9_typed_assertion_safe.2.2.2.1 cInst tS hwf vS cInst false rfl
  · exact c9_typed_assertion_safe.2.2.2.2 cInst tS hwf
  · exact c9_typed_assertion_safe.2.1 Container.new (.register (some vS))
      c9_typed_assertion_safe.1

/-- C10: passing the untyped nil interface to `Register`,
`RegisterFactory` or `Container.Get` does not return a validation
error: each panics at runtime (`reflect.TypeOf(nil)` is a nil
`reflect.Type`, so `Kind()` on it — and `reflect.Value.Type()` on the
zero `Value` — dereferences nil), leaving the container unchanged and
returning no error value of any kind. -/
theorem c10_nil_panics (c : Container) :
    c.register none = (.panic none, c) ∧
    c.registerFactory none = (.panic none, c) ∧
    c.get none = (.panic none, c, false) ∧
    (∀ e, (c.register none).1 ≠ Res.err e) ∧
    (∀ e, (c.registerFactory none).1 ≠ Res.err e) ∧
    (∀ e, (c.get none).1 ≠ Res.err e) := by
  refine ⟨rfl, rfl, rfl, ?_, ?_, ?_⟩ <;>
    intro e <;> simp [Container.register, Container.registerFactory, Container.get]
